import Mathlib

/-!
A shallow embedding of `src/main.py`, the MySQL HA probe client.

The interesting code is the worker loop `db_worker` (lines 72–188): a
connect-with-backoff / query / pace loop with failure classification.
We model one iteration of the `while not stop_event.is_set()` loop as a
pure step function `db_worker_step` on an explicit `WorkerState`, driven
by a `StepInput` oracle supplying everything the environment decides in
that iteration: the stop flag read at the loop top, the outcome of
`mysql.connector.connect` if attempted, the two `random.random()` draws,
the outcome of the query phase, and whether the endpoint killed the held
session.  Sleeps, log calls, session opens/closes and cursor
opens/closes are recorded in an event trace so that timing and resource
claims can be stated.  The ghost field `live` records the ids of this
worker's sessions that are currently open, so the at-most-one-live-session
invariant can be expressed.
-/

namespace MySQLHAProbe

/-- The `mysql.connector.errorcode` constants named at lines 142–148 of
`src/main.py` (values from the MySQL client/server protocol). -/
def CR_SERVER_GONE_ERROR : Nat := 2006

/-- `mysql.connector.errorcode.CR_SERVER_LOST`. -/
def CR_SERVER_LOST : Nat := 2013

/-- `mysql.connector.errorcode.CR_CONNECTION_ERROR`. -/
def CR_CONNECTION_ERROR : Nat := 2002

/-- `mysql.connector.errorcode.ER_CON_COUNT_ERROR` (too many connections). -/
def ER_CON_COUNT_ERROR : Nat := 1040

/-- `mysql.connector.errorcode.ER_IPSOCK_ERROR`. -/
def ER_IPSOCK_ERROR : Nat := 1081

/-- `mysql.connector.errorcode.ER_LOCK_WAIT_TIMEOUT`. -/
def ER_LOCK_WAIT_TIMEOUT : Nat := 1205

/-- `mysql.connector.errorcode.ER_QUERY_INTERRUPTED`. -/
def ER_QUERY_INTERRUPTED : Nat := 1317

/-- The tuple of error codes tested at lines 142–148: errors that indicate
the connection was lost. -/
def connectionLostErrnos : List Nat :=
  [CR_SERVER_GONE_ERROR, CR_SERVER_LOST, CR_CONNECTION_ERROR,
   ER_CON_COUNT_ERROR, ER_IPSOCK_ERROR, ER_LOCK_WAIT_TIMEOUT,
   ER_QUERY_INTERRUPTED]

/-- The membership test `err.errno in (...)` at line 142. -/
def isConnectionLost (errno : Nat) : Bool :=
  connectionLostErrnos.contains errno

/-- The process configuration parsed at lines 20–33 (connection
credentials are opaque to the worker state machine and omitted). -/
structure Args where
  create_db : Bool
  workers : Nat
  short_query_interval : ℚ
  long_query_chance : ℚ
  long_query_duration : ℚ
  connect_timeout : ℚ
deriving Repr, DecidableEq

/-- Outcome of the query phase of one iteration (lines 109–167):
either every call succeeds, or a `mysql.connector.Error` with the given
`errno` is raised during execution, or a non-mysql exception escapes the
inner `try` and reaches the outer `except Exception` (line 170). -/
inductive QueryOutcome where
  | ok
  | mysqlErr (errno : Nat)
  | unexpected
deriving Repr, DecidableEq

/-- Everything the environment decides during one loop iteration. -/
structure StepInput where
  /-- `stop_event.is_set()` read at the top of the loop (line 82). -/
  stop : Bool
  /-- the held session is found dead by `connection.is_connected()` at the
  loop-top check (line 85) or at the cleanup check (lines 150, 173, 182). -/
  sessionDies : Bool
  /-- outcome of `mysql.connector.connect` (line 88), if attempted. -/
  connectOk : Bool
  /-- `random.random()` draw deciding long vs short query (line 113). -/
  rLong : ℚ
  /-- outcome of the query phase. -/
  outcome : QueryOutcome
  /-- the failure itself killed the session, so the handler's
  `connection.is_connected()` (line 150 / 173) returns false. -/
  diesInError : Bool
  /-- `random.random()` draw for the pacing jitter (line 137). -/
  uJitter : ℚ
deriving Repr, DecidableEq

/-- Log severities used by the worker. -/
inductive LogLevel where
  | info
  | warning
  | error
  | critical
deriving Repr, DecidableEq

/-- Observable events of one iteration, in program order. -/
inductive Event where
  /-- `time.sleep(secs)`. -/
  | sleep (secs : ℚ)
  /-- the call to `mysql.connector.connect` at line 88. -/
  | connectAttempt
  /-- a successful connect producing the session with this id (line 98). -/
  | connectSuccess (id : Nat)
  /-- a `logging.<lvl>` call. -/
  | logged (lvl : LogLevel)
  /-- `connection.cursor()` at line 110. -/
  | cursorOpen
  /-- `cursor.execute(query)`; `long` tells which query was chosen. -/
  | queryIssued (long : Bool)
  /-- `cursor.close()` (line 133 or the `finally` at line 165). -/
  | cursorClose
  /-- `connection.close()` on the session with this id. -/
  | sessionClose (id : Nat)
deriving Repr, DecidableEq

/-- The local state of `db_worker`: the `connection` variable (by session
id), the `retry_delay` variable, whether the loop has exited, a counter
producing fresh connection ids, and the ghost list of this worker's
currently open sessions. -/
structure WorkerState where
  connection : Option Nat
  retry_delay : Nat
  stopped : Bool
  nextId : Nat
  live : List Nat
deriving Repr, DecidableEq

/-- Line 104: `retry_delay = min(retry_delay * 2, 30)`. -/
def nextDelay (d : Nat) : Nat := min (d * 2) 30

/-- The open sessions after the possible environment-side death of the
held session, as observed by `connection.is_connected()` at the loop top
(line 85). -/
def liveAtTop (inp : StepInput) (s : WorkerState) : List Nat :=
  match s.connection with
  | some id => if inp.sessionDies then s.live.erase id else s.live
  | none => s.live

/-- The loop-top test `connection is None or not connection.is_connected()`
(line 85). -/
def needsConnect (inp : StepInput) (s : WorkerState) : Bool :=
  match s.connection with
  | some id => decide (id ∉ liveAtTop inp s)
  | none => true

/-- The query phase (lines 108–167): the inner `try` opening a cursor and
running one query on the live session `id`, with its `except
mysql.connector.Error` handler (lines 139–159), its `finally` closing the
cursor (lines 161–167), and — for a non-mysql exception — the outer
`except Exception` handler (lines 170–179).  Event order follows the
source: for a mysql error the handler (log, optional close, sleep) runs
before the `finally` closes the cursor; for an unexpected exception the
`finally` runs first, while the exception unwinds, and the outer handler
after it. -/
def queryPhase (a : Args) (inp : StepInput) (s : WorkerState) (id : Nat) :
    WorkerState × List Event :=
  let long := decide (inp.rLong < a.long_query_chance)
  match inp.outcome with
  | .ok =>
      (s, [.cursorOpen, .queryIssued long, .cursorClose,
           .sleep (a.short_query_interval * (8/10 + inp.uJitter * (4/10)))])
  | .mysqlErr errno =>
      let liveNow := if inp.diesInError then s.live.erase id else s.live
      if isConnectionLost errno then
        if id ∈ liveNow then
          ({ s with connection := none, live := liveNow.erase id },
           [.cursorOpen, .queryIssued long, .logged .error, .logged .warning,
            .sessionClose id, .sleep 1, .cursorClose])
        else
          ({ s with connection := none, live := liveNow },
           [.cursorOpen, .queryIssued long, .logged .error, .logged .warning,
            .sleep 1, .cursorClose])
      else
        ({ s with live := liveNow },
         [.cursorOpen, .queryIssued long, .logged .error, .sleep 2,
          .cursorClose])
  | .unexpected =>
      let liveNow := if inp.diesInError then s.live.erase id else s.live
      if id ∈ liveNow then
        ({ s with connection := none, live := liveNow.erase id },
         [.cursorOpen, .queryIssued long, .cursorClose, .logged .critical,
          .sessionClose id, .sleep 5])
      else
        ({ s with connection := none, live := liveNow },
         [.cursorOpen, .queryIssued long, .cursorClose, .logged .critical,
          .sleep 5])

/-- Lines 85–105: the connect attempt.  On failure the worker logs, sleeps
the current `retry_delay`, doubles it (capped at 30) and `continue`s; on
success it resets `retry_delay` to 1 and — there is no `continue` — falls
through to the query phase in the same iteration. -/
def connectThenQuery (a : Args) (inp : StepInput) (s : WorkerState) :
    WorkerState × List Event :=
  if inp.connectOk then
    let id := s.nextId
    let s1 := { s with connection := some id, live := id :: s.live,
                       nextId := s.nextId + 1, retry_delay := 1 }
    let r := queryPhase a inp s1 id
    (r.1, .connectAttempt :: .connectSuccess id :: r.2)
  else
    ({ s with connection := none,
              retry_delay := nextDelay s.retry_delay },
     [.connectAttempt, .logged .error, .sleep (s.retry_delay : ℚ)])

/-- One iteration of the `while not stop_event.is_set()` loop of
`db_worker` (lines 82–179), including — when the stop flag is observed at
the loop top — the post-loop cleanup (lines 181–188).  The stop flag is
read exactly once, at the start of the step, mirroring line 82: a step
that begins with the flag unset runs its whole query phase.  A stopped
worker takes no further steps. -/
def db_worker_step (a : Args) (inp : StepInput) (s : WorkerState) :
    WorkerState × List Event :=
  if s.stopped then (s, [])
  else if inp.stop then
    match s.connection with
    | some id =>
        let liveNow := if inp.sessionDies then s.live.erase id else s.live
        if id ∈ liveNow then
          ({ s with stopped := true, live := liveNow.erase id },
           [.sessionClose id])
        else ({ s with stopped := true, live := liveNow }, [])
    | none => ({ s with stopped := true }, [])
  else
    let s1 := { s with live := liveAtTop inp s }
    match s.connection with
    | some id =>
        if id ∈ liveAtTop inp s then queryPhase a inp s1 id
        else connectThenQuery a inp s1
    | none => connectThenQuery a inp s1

/-- The worker state machine's abstract phases (§4.2 of the design). -/
inductive Phase where
  | DISCONNECTED
  | CONNECTING
  | CONNECTED
  | STOPPED
deriving Repr, DecidableEq

/-- The abstract phase of a worker state: `STOPPED` once the loop has
exited, `CONNECTED` while a live session is held, `DISCONNECTED`
otherwise. -/
def phase (s : WorkerState) : Phase :=
  if s.stopped then .STOPPED
  else
    match s.connection with
    | some id => if id ∈ s.live then .CONNECTED else .DISCONNECTED
    | none => .DISCONNECTED

/-- The durations of the `time.sleep` calls of a trace, in order. -/
def sleepsOf (evts : List Event) : List ℚ :=
  evts.filterMap fun e =>
    match e with
    | .sleep q => some q
    | _ => none

/-- Recognizer for `Event.cursorOpen`. -/
def isCursorOpen : Event → Bool
  | .cursorOpen => true
  | _ => false

/-- Recognizer for `Event.cursorClose`. -/
def isCursorClose : Event → Bool
  | .cursorClose => true
  | _ => false

/-- `true` when no `queryIssued` event occurs before the first
`connectAttempt` event of the trace. -/
def connectPrecedesQueries : List Event → Bool
  | [] => true
  | Event.queryIssued _ :: _ => false
  | Event.connectAttempt :: _ => true
  | _ :: rest => connectPrecedesQueries rest

/-- Run a list of iterations from a state (first input first). -/
def runFrom (a : Args) (inps : List StepInput) (s : WorkerState) :
    WorkerState :=
  inps.foldl (fun st i => (db_worker_step a i st).1) s

/-- The state at lines 79–80: no connection yet, `retry_delay = 1`. -/
def initState : WorkerState :=
  { connection := none, retry_delay := 1, stopped := false,
    nextId := 0, live := [] }

/-- States a worker can reach from its initial state. -/
inductive Reachable (a : Args) : WorkerState → Prop where
  | init : Reachable a initState
  | step (inp : StepInput) {s : WorkerState} :
      Reachable a s → Reachable a (db_worker_step a inp s).1

/-- The session invariant: the worker's open sessions are at most the one
it holds. -/
def SessionInv (s : WorkerState) : Prop :=
  match s.connection with
  | none => s.live = []
  | some id => s.live = [] ∨ s.live = [id]

/-- Outcome of the one-shot `--create-db` bootstrap (lines 36–57). -/
inductive BootstrapResult where
  | ok
  | err
deriving Repr, DecidableEq

/-- The process exit code (lines 36–57 and 192–234): `sys.exit(1)` at
line 54 when the requested bootstrap raises a `mysql.connector.Error`,
otherwise the final `sys.exit(0)` at line 234.  The traces produced by
the worker threads are only ever logged and never consulted. -/
def mainExitCode (create_db : Bool) (r : BootstrapResult)
    (_workerRuns : List (List Event)) : Nat :=
  if create_db then
    match r with
    | .err => 1
    | .ok => 0
  else 0

/-- CLI defaults (lines 22–31) as a concrete configuration. -/
def args0 : Args :=
  { create_db := false, workers := 5, short_query_interval := 1/2,
    long_query_chance := 1/10, long_query_duration := 10,
    connect_timeout := 10 }

/-- A benign iteration: connect succeeds if attempted, query succeeds,
nothing dies. -/
def inpIdle : StepInput :=
  { stop := false, sessionDies := false, connectOk := true, rLong := 1,
    outcome := .ok, diesInError := false, uJitter := 1/2 }

/-- The state after one benign iteration from `initState`: connected with
session id 0. -/
def sConn : WorkerState := (db_worker_step args0 inpIdle initState).1

/-- A connect-failure iteration: the stop flag is unset and the connect
attempt fails. -/
def failInp : StepInput :=
  { stop := false, sessionDies := false, connectOk := false, rLong := 1,
    outcome := .ok, diesInError := false, uJitter := 0 }

/-- An iteration whose query fails with `CR_SERVER_LOST` (2013). -/
def inpLost : StepInput :=
  { stop := false, sessionDies := false, connectOk := true, rLong := 1,
    outcome := .mysqlErr CR_SERVER_LOST, diesInError := false,
    uJitter := 0 }

/-- An iteration whose query fails with errno 1064 (`ER_PARSE_ERROR`,
a syntax error — not in the connection-lost class). -/
def inpSyntaxErr : StepInput :=
  { stop := false, sessionDies := false, connectOk := true, rLong := 1,
    outcome := .mysqlErr 1064, diesInError := false, uJitter := 0 }

/-- An iteration whose query phase raises a non-mysql exception. -/
def inpUnexpected : StepInput :=
  { stop := false, sessionDies := false, connectOk := true, rLong := 1,
    outcome := .unexpected, diesInError := false, uJitter := 0 }

/-- An iteration that observes the stop flag. -/
def inpStop : StepInput :=
  { stop := true, sessionDies := false, connectOk := true, rLong := 1,
    outcome := .ok, diesInError := false, uJitter := 0 }

/-- The CLI defaults with `short_query_interval = 0` (a value the CLI
accepts; the design document's own test scenario uses it). -/
def argsZero : Args := { args0 with short_query_interval := 0 }

/-! ### Step characterization lemmas -/

lemma queryPhase_retry_delay (a : Args) (inp : StepInput) (s : WorkerState)
    (id : Nat) : (queryPhase a inp s id).1.retry_delay = s.retry_delay := by
  cases h : inp.outcome <;> simp only [queryPhase, h] <;> split_ifs <;> rfl

lemma queryPhase_stopped (a : Args) (inp : StepInput) (s : WorkerState)
    (id : Nat) : (queryPhase a inp s id).1.stopped = s.stopped := by
  cases h : inp.outcome <;> simp only [queryPhase, h] <;> split_ifs <;> rfl

lemma step_of_stopped (a : Args) (inp : StepInput) (s : WorkerState)
    (h : s.stopped = true) : db_worker_step a inp s = (s, []) := by
  simp [db_worker_step, h]

lemma step_fail_eq (a : Args) (inp : StepInput) (s : WorkerState)
    (h1 : s.stopped = false) (h2 : inp.stop = false)
    (h3 : s.connection = none) (h4 : inp.connectOk = false) :
    db_worker_step a inp s =
      ({ s with connection := none,
                retry_delay := nextDelay s.retry_delay },
       [.connectAttempt, .logged .error, .sleep (s.retry_delay : ℚ)]) := by
  simp [db_worker_step, h1, h2, h3, h4, connectThenQuery, liveAtTop]

lemma step_needsConnect_eq (a : Args) (inp : StepInput) (s : WorkerState)
    (h1 : s.stopped = false) (h2 : inp.stop = false)
    (hn : needsConnect inp s = true) :
    db_worker_step a inp s =
      connectThenQuery a inp { s with live := liveAtTop inp s } := by
  unfold db_worker_step
  rw [h1, h2]
  cases hc : s.connection with
  | none => simp
  | some id =>
      unfold needsConnect at hn
      rw [hc] at hn
      simp only [decide_eq_true_eq] at hn
      simp [hn]

/-! ### The single-live-session invariant -/

lemma sessionInv_queryPhase (a : Args) (inp : StepInput) (s : WorkerState)
    (id : Nat) (hc : s.connection = some id)
    (h : s.live = [] ∨ s.live = [id]) :
    SessionInv (queryPhase a inp s id).1 := by
  cases ho : inp.outcome with
  | ok =>
      simp only [queryPhase, ho, SessionInv, hc]
      exact h
  | mysqlErr errno =>
      rcases h with h | h <;>
        by_cases d : inp.diesInError <;>
        by_cases hl : isConnectionLost errno <;>
        simp [queryPhase, ho, SessionInv, hc, h, d, hl, List.erase_cons_head]
  | unexpected =>
      rcases h with h | h <;>
        by_cases d : inp.diesInError <;>
        simp [queryPhase, ho, SessionInv, hc, h, d, List.erase_cons_head]

lemma sessionInv_connectThenQuery (a : Args) (inp : StepInput)
    (s : WorkerState) (h : s.live = []) :
    SessionInv (connectThenQuery a inp s).1 := by
  unfold connectThenQuery
  by_cases hok : inp.connectOk
  · simp only [hok, if_true]
    exact sessionInv_queryPhase a inp _ s.nextId rfl (by simp [h])
  · simp [hok, SessionInv, h]

lemma step_stop_none_eq (a : Args) (inp : StepInput) (s : WorkerState)
    (h1 : s.stopped = false) (h2 : inp.stop = true)
    (hc : s.connection = none) :
    db_worker_step a inp s = ({ s with stopped := true }, []) := by
  simp [db_worker_step, h1, h2, hc]

lemma step_stop_some_eq (a : Args) (inp : StepInput) (s : WorkerState)
    (id : Nat) (h1 : s.stopped = false) (h2 : inp.stop = true)
    (hc : s.connection = some id) :
    db_worker_step a inp s =
      (if id ∈ (if inp.sessionDies then s.live.erase id else s.live) then
        ({ s with stopped := true,
                  live := (if inp.sessionDies then s.live.erase id
                           else s.live).erase id },
         [.sessionClose id])
      else
        ({ s with stopped := true,
                  live := if inp.sessionDies then s.live.erase id
                          else s.live }, [])) := by
  simp only [db_worker_step, h1, h2, hc]
  rfl

lemma step_body_query_eq (a : Args) (inp : StepInput) (s : WorkerState)
    (id : Nat) (h1 : s.stopped = false) (h2 : inp.stop = false)
    (hc : s.connection = some id) (hm : id ∈ liveAtTop inp s) :
    db_worker_step a inp s =
      queryPhase a inp { s with live := liveAtTop inp s } id := by
  simp [db_worker_step, h1, h2, hc, hm]

lemma liveAtTop_of_inv (inp : StepInput) (s : WorkerState) (id : Nat)
    (hc : s.connection = some id) (h : s.live = [] ∨ s.live = [id]) :
    liveAtTop inp s = [] ∨ liveAtTop inp s = [id] := by
  unfold liveAtTop
  rw [hc]
  rcases h with h | h <;> rw [h] <;>
    by_cases d : inp.sessionDies <;> simp [d]

lemma sessionInv_step (a : Args) (inp : StepInput) (s : WorkerState)
    (h : SessionInv s) : SessionInv (db_worker_step a inp s).1 := by
  by_cases hs : s.stopped
  · rw [step_of_stopped a inp s hs]; exact h
  · rw [Bool.not_eq_true] at hs
    by_cases hst : inp.stop
    · cases hc : s.connection with
      | none =>
          rw [step_stop_none_eq a inp s hs hst hc]
          unfold SessionInv at h ⊢
          rw [hc] at h
          simpa [hc] using h
      | some id =>
          have h2 : s.live = [] ∨ s.live = [id] := by
            unfold SessionInv at h; rwa [hc] at h
          rw [step_stop_some_eq a inp s id hs hst hc]
          rcases h2 with h2 | h2 <;> rw [h2] <;>
            by_cases d : inp.sessionDies <;>
            simp [d, SessionInv, hc]
    · rw [Bool.not_eq_true] at hst
      cases hc : s.connection with
      | none =>
          have hl : s.live = [] := by
            unfold SessionInv at h; rwa [hc] at h
          rw [step_needsConnect_eq a inp s hs hst (by simp [needsConnect, hc])]
          exact sessionInv_connectThenQuery a inp _ (by simp [liveAtTop, hc, hl])
      | some id =>
          have h2 : s.live = [] ∨ s.live = [id] := by
            unfold SessionInv at h; rwa [hc] at h
          rcases liveAtTop_of_inv inp s id hc h2 with hL | hL
          · have hm : id ∉ liveAtTop inp s := by simp [hL]
            rw [step_needsConnect_eq a inp s hs hst
              (by simp [needsConnect, hc, hm])]
            exact sessionInv_connectThenQuery a inp _ (by simp [hL])
          · have hm : id ∈ liveAtTop inp s := by simp [hL]
            rw [step_body_query_eq a inp s id hs hst hc hm]
            exact sessionInv_queryPhase a inp _ id (by simp [hc])
              (Or.inr (by simp [hL]))

lemma reachable_sessionInv (a : Args) (s : WorkerState)
    (h : Reachable a s) : SessionInv s := by
  induction h with
  | init => simp [SessionInv, initState]
  | step inp _ ih => exact sessionInv_step _ _ _ ih

/-! ### Retry-delay bounds -/

/-- The retry delay stays in the interval `[1, 30]`. -/
def RetryInv (s : WorkerState) : Prop :=
  1 ≤ s.retry_delay ∧ s.retry_delay ≤ 30

lemma retryInv_connectThenQuery (a : Args) (inp : StepInput)
    (s : WorkerState) (h : RetryInv s) :
    RetryInv (connectThenQuery a inp s).1 := by
  by_cases hok : inp.connectOk
  · unfold RetryInv
    simp only [connectThenQuery, hok, if_true]
    rw [queryPhase_retry_delay]
    exact ⟨le_refl 1, by norm_num⟩
  · rw [Bool.not_eq_true] at hok
    unfold RetryInv at h ⊢
    simp only [connectThenQuery, hok, Bool.false_eq_true, if_false]
    show 1 ≤ nextDelay s.retry_delay ∧ nextDelay s.retry_delay ≤ 30
    unfold nextDelay
    omega

lemma retryInv_step (a : Args) (inp : StepInput) (s : WorkerState)
    (h : RetryInv s) : RetryInv (db_worker_step a inp s).1 := by
  by_cases hs : s.stopped
  · rw [step_of_stopped a inp s hs]; exact h
  · rw [Bool.not_eq_true] at hs
    by_cases hst : inp.stop
    · cases hc : s.connection with
      | none => rw [step_stop_none_eq a inp s hs hst hc]; exact h
      | some id =>
          rw [step_stop_some_eq a inp s id hs hst hc]
          split_ifs <;> exact h
    · rw [Bool.not_eq_true] at hst
      cases hc : s.connection with
      | none =>
          rw [step_needsConnect_eq a inp s hs hst (by simp [needsConnect, hc])]
          exact retryInv_connectThenQuery a inp _ h
      | some id =>
          by_cases hm : id ∈ liveAtTop inp s
          · rw [step_body_query_eq a inp s id hs hst hc hm]
            unfold RetryInv at h ⊢
            rw [queryPhase_retry_delay]
            exact h
          · rw [step_needsConnect_eq a inp s hs hst
              (by simp [needsConnect, hc, hm])]
            exact retryInv_connectThenQuery a inp _ h

lemma reachable_retryInv (a : Args) (s : WorkerState)
    (h : Reachable a s) : RetryInv s := by
  induction h with
  | init => exact ⟨by decide, by decide⟩
  | step inp _ ih => exact retryInv_step _ _ _ ih

/-! ### Backoff arithmetic -/

lemma nextDelay_iterate (k : Nat) : nextDelay^[k] 1 = min (2 ^ k) 30 := by
  induction k with
  | zero => simp
  | succ k ih =>
      rw [Function.iterate_succ_apply', ih]
      unfold nextDelay
      rw [pow_succ]
      generalize (2 : ℕ) ^ k = m
      omega

lemma runFrom_fail (a : Args) (inps : List StepInput) (s : WorkerState)
    (h1 : s.stopped = false) (h2 : s.connection = none)
    (hf : ∀ i ∈ inps, i.stop = false ∧ i.connectOk = false) :
    (runFrom a inps s).stopped = false ∧
      (runFrom a inps s).connection = none ∧
      (runFrom a inps s).retry_delay =
        nextDelay^[inps.length] s.retry_delay := by
  revert h1 h2 hf
  induction inps generalizing s with
  | nil =>
      intro h1 h2 _
      simp [runFrom, h1, h2]
  | cons i rest ih =>
      intro h1 h2 hf
      obtain ⟨hi1, hi2⟩ := hf i (List.mem_cons_self i rest)
      have hrw : runFrom a (i :: rest) s =
          runFrom a rest (db_worker_step a i s).1 := by
        simp [runFrom]
      rw [hrw, step_fail_eq a i s h1 hi1 h2 hi2]
      obtain ⟨ha, hb, hd⟩ := ih
        { s with connection := none, retry_delay := nextDelay s.retry_delay }
        h1 rfl (fun j hj => hf j (List.mem_cons_of_mem i hj))
      refine ⟨ha, hb, ?_⟩
      rw [hd, List.length_cons, Function.iterate_succ_apply]

lemma connectPrecedes_of_none (a : Args) (inp : StepInput) (s : WorkerState)
    (hc : s.connection = none) :
    connectPrecedesQueries (db_worker_step a inp s).2 = true := by
  by_cases hs : s.stopped
  · rw [step_of_stopped a inp s hs]; rfl
  · rw [Bool.not_eq_true] at hs
    by_cases hst : inp.stop
    · rw [step_stop_none_eq a inp s hs hst hc]; rfl
    · rw [Bool.not_eq_true] at hst
      rw [step_needsConnect_eq a inp s hs hst (by simp [needsConnect, hc])]
      by_cases hok : inp.connectOk
      · simp only [connectThenQuery, hok, if_true]
        rfl
      · rw [Bool.not_eq_true] at hok
        simp only [connectThenQuery, hok, Bool.false_eq_true, if_false]
        rfl

/-! ### Cursor accounting -/

lemma cursor_queryPhase (a : Args) (inp : StepInput) (s : WorkerState)
    (id : Nat) :
    (queryPhase a inp s id).2.countP isCursorOpen
        = (queryPhase a inp s id).2.countP isCursorClose ∧
      (queryPhase a inp s id).2.countP isCursorOpen ≤ 1 := by
  cases ho : inp.outcome <;>
    simp only [queryPhase, ho] <;> (try split_ifs) <;>
    simp [List.countP_cons, isCursorOpen, isCursorClose]

lemma cursor_connectThenQuery (a : Args) (inp : StepInput)
    (s : WorkerState) :
    (connectThenQuery a inp s).2.countP isCursorOpen
        = (connectThenQuery a inp s).2.countP isCursorClose ∧
      (connectThenQuery a inp s).2.countP isCursorOpen ≤ 1 := by
  by_cases hok : inp.connectOk
  · simp only [connectThenQuery, hok, if_true]
    have h := cursor_queryPhase a inp
      { s with connection := some s.nextId, live := s.nextId :: s.live,
               nextId := s.nextId + 1, retry_delay := 1 } s.nextId
    simpa [List.countP_cons, isCursorOpen, isCursorClose] using h
  · rw [Bool.not_eq_true] at hok
    simp [connectThenQuery, hok, List.countP_cons, isCursorOpen,
      isCursorClose]

/-! ### The claims -/

/-- C1: starting from a freshly reset worker (`retry_delay = 1`, no
connection), after any sequence of `inps.length` consecutive connect
failures the next failing connect attempt sleeps exactly
`min(2^inps.length, 30)` seconds — i.e. the k-th backoff sleep of a run
of consecutive failures, the delay before retry attempt k, is
`min(2^(k-1), 30)`, starting at 1, doubling on each consecutive failure
and capped at 30; and any iteration whose connect attempt succeeds
leaves `retry_delay` reset to 1. -/
theorem backoff_policy (a : Args) (inps : List StepInput) (s : WorkerState)
    (h1 : s.stopped = false) (h2 : s.connection = none)
    (h3 : s.retry_delay = 1)
    (hf : ∀ i ∈ inps, i.stop = false ∧ i.connectOk = false)
    (inp : StepInput) (h4 : inp.stop = false) (h5 : inp.connectOk = false) :
    sleepsOf (db_worker_step a inp (runFrom a inps s)).2
        = [((min (2 ^ inps.length) 30 : ℕ) : ℚ)] ∧
      ∀ (inp2 : StepInput) (t : WorkerState), t.stopped = false →
        inp2.stop = false → needsConnect inp2 t = true →
        inp2.connectOk = true →
        (db_worker_step a inp2 t).1.retry_delay = 1 := by
  constructor
  · obtain ⟨ha, hb, hd⟩ := runFrom_fail a inps s h1 h2 hf
    rw [step_fail_eq a inp _ ha h4 hb h5]
    rw [h3] at hd
    simp [sleepsOf, hd, nextDelay_iterate]
  · intro inp2 t ht hstop hn hok
    rw [step_needsConnect_eq a inp2 t ht hstop hn]
    simp [connectThenQuery, hok, queryPhase_retry_delay]

/-- Witness for `backoff_policy`: after one concrete failure from the
initial state, the second failing attempt sleeps `min(2^1, 30) = 2`. -/
theorem backoff_policy_witness :
    sleepsOf (db_worker_step args0 failInp
        (runFrom args0 [failInp] initState)).2
      = [((min (2 ^ 1) 30 : ℕ) : ℚ)] :=
  (backoff_policy args0 [failInp] initState rfl rfl rfl (by decide)
    failInp rfl rfl).1

/-- C4: at every reachable state of the worker loop, the worker holds at
most one live session — the list of its currently open sessions has
length at most one, and any open session is precisely the one held by
the `connection` variable. -/
theorem at_most_one_live_session (a : Args) (s : WorkerState)
    (hr : Reachable a s) :
    s.live.length ≤ 1 ∧ ∀ id ∈ s.live, s.connection = some id := by
  have h := reachable_sessionInv a s hr
  unfold SessionInv at h
  cases hc : s.connection with
  | none => rw [hc] at h; simp [h]
  | some id => rw [hc] at h; rcases h with h | h <;> simp [h, hc]

/-- Witness for `at_most_one_live_session` at the concrete reachable
state `sConn`. -/
theorem at_most_one_live_session_witness : sConn.live.length ≤ 1 :=
  (at_most_one_live_session args0 sConn
    (Reachable.step inpIdle Reachable.init)).1

/-- C10: at every reachable state the retry delay lies in `[1, 30]`;
an iteration that handles a query outcome (the worker held a live
session, so the connect branch is not entered — this covers the
connection-lost, other-error and unexpected-error handlers) leaves the
retry delay unchanged, as do the shutdown path and a stopped worker; so
a reconnect forced by a query error starts from the delay left by the
last connect outcome. -/
theorem retry_delay_bounds_and_stability (a : Args) (s : WorkerState)
    (hr : Reachable a s) :
    (1 ≤ s.retry_delay ∧ s.retry_delay ≤ 30) ∧
      (∀ (inp : StepInput) (id : Nat), s.stopped = false →
        inp.stop = false → s.connection = some id →
        id ∈ liveAtTop inp s →
        (db_worker_step a inp s).1.retry_delay = s.retry_delay) ∧
      ∀ inp : StepInput, s.stopped = true ∨ inp.stop = true →
        (db_worker_step a inp s).1.retry_delay = s.retry_delay := by
  refine ⟨reachable_retryInv a s hr, ?_, ?_⟩
  · intro inp id h1 h2 hc hm
    rw [step_body_query_eq a inp s id h1 h2 hc hm, queryPhase_retry_delay]
  · intro inp h
    by_cases hs : s.stopped
    · rw [step_of_stopped a inp s hs]
    · rw [Bool.not_eq_true] at hs
      have hst : inp.stop = true := by
        rcases h with h | h
        · rw [h] at hs; cases hs
        · exact h
      cases hc : s.connection with
      | none => rw [step_stop_none_eq a inp s hs hst hc]
      | some id =>
          rw [step_stop_some_eq a inp s id hs hst hc]
          split_ifs <;> rfl

/-- Witness for `retry_delay_bounds_and_stability` at the reachable
state `sConn`. -/
theorem retry_delay_bounds_witness :
    1 ≤ sConn.retry_delay ∧ sConn.retry_delay ≤ 30 :=
  (retry_delay_bounds_and_stability args0 sConn
    (Reachable.step inpIdle Reachable.init)).1

/-- C8: the process exit code is non-zero exactly when the `--create-db`
bootstrap was requested and failed (`sys.exit(1)`, line 54); it is 0 on
graceful shutdown (`sys.exit(0)`, line 234); and the exit code is
independent of anything the workers did — no error inside a worker ever
produces a non-zero exit. -/
theorem exit_code_policy (c : Bool) (r : BootstrapResult)
    (t : List (List Event)) :
    (mainExitCode c r t ≠ 0 ↔ c = true ∧ r = BootstrapResult.err) ∧
      (mainExitCode c r t = 0 ∨ mainExitCode c r t = 1) ∧
      ∀ t2 : List (List Event), mainExitCode c r t = mainExitCode c r t2 := by
  cases c <;> cases r <;> simp [mainExitCode]

/-- C9: in the trace of any single iteration — normal completion,
classified query error, unexpected error, and also the connect-only and
shutdown paths, which open no cursor — the number of cursor opens equals
the number of cursor closes, and at most one cursor is opened: the
cursor acquired for the iteration is always released before the
iteration ends. -/
theorem cursor_balanced_each_iteration (a : Args) (inp : StepInput)
    (s : WorkerState) :
    (db_worker_step a inp s).2.countP isCursorOpen
        = (db_worker_step a inp s).2.countP isCursorClose ∧
      (db_worker_step a inp s).2.countP isCursorOpen ≤ 1 := by
  by_cases hs : s.stopped
  · rw [step_of_stopped a inp s hs]; simp
  · rw [Bool.not_eq_true] at hs
    by_cases hst : inp.stop
    · cases hc : s.connection with
      | none => rw [step_stop_none_eq a inp s hs hst hc]; simp
      | some id =>
          rw [step_stop_some_eq a inp s id hs hst hc]
          split_ifs <;>
            simp [List.countP_cons, isCursorOpen, isCursorClose]
    · rw [Bool.not_eq_true] at hst
      cases hc : s.connection with
      | none =>
          rw [step_needsConnect_eq a inp s hs hst
            (by simp [needsConnect, hc])]
          exact cursor_connectThenQuery a inp _
      | some id =>
          by_cases hm : id ∈ liveAtTop inp s
          · rw [step_body_query_eq a inp s id hs hst hc hm]
            exact cursor_queryPhase a inp _ id
          · rw [step_needsConnect_eq a inp s hs hst
              (by simp [needsConnect, hc, hm])]
            exact cursor_connectThenQuery a inp _

/-- C2: when a query fails with a connection-lost-class errno while the
worker holds live session `id` (the environment does not itself kill the
session in this iteration), the iteration logs an error and a warning,
force-closes the session, sleeps 1 second, closes the cursor, and leaves
the worker DISCONNECTED with no live session; and whatever the next
iteration's input is, any query it issues is preceded by a reconnect
attempt. -/
theorem connection_lost_recovery (a : Args) (inp : StepInput)
    (s : WorkerState) (id errno : Nat) (hr : Reachable a s)
    (h1 : s.stopped = false) (h2 : inp.stop = false)
    (h3 : inp.sessionDies = false) (h4 : inp.diesInError = false)
    (hc : s.connection = some id) (hl : id ∈ s.live)
    (ho : inp.outcome = QueryOutcome.mysqlErr errno)
    (he : isConnectionLost errno = true) :
    (db_worker_step a inp s).2 =
        [Event.cursorOpen,
         Event.queryIssued (decide (inp.rLong < a.long_query_chance)),
         Event.logged LogLevel.error, Event.logged LogLevel.warning,
         Event.sessionClose id, Event.sleep 1, Event.cursorClose] ∧
      (db_worker_step a inp s).1.connection = none ∧
      (db_worker_step a inp s).1.live = [] ∧
      phase (db_worker_step a inp s).1 = Phase.DISCONNECTED ∧
      ∀ inp2 : StepInput,
        connectPrecedesQueries
          (db_worker_step a inp2 (db_worker_step a inp s).1).2 = true := by
  have hinv := reachable_sessionInv a s hr
  unfold SessionInv at hinv
  rw [hc] at hinv
  have hlive : s.live = [id] := by
    rcases hinv with h | h
    · rw [h] at hl; cases hl
    · exact h
  have hs1live : liveAtTop inp s = s.live := by
    unfold liveAtTop; rw [hc]; simp [h3]
  have hm : id ∈ liveAtTop inp s := by rw [hs1live]; exact hl
  rw [step_body_query_eq a inp s id h1 h2 hc hm]
  have e1 : (queryPhase a inp { s with live := liveAtTop inp s } id).1 =
      { s with connection := none, live := [] } := by
    simp [queryPhase, ho, he, h4, hs1live, hlive]
  have e2 : (queryPhase a inp { s with live := liveAtTop inp s } id).2 =
      [Event.cursorOpen,
       Event.queryIssued (decide (inp.rLong < a.long_query_chance)),
       Event.logged LogLevel.error, Event.logged LogLevel.warning,
       Event.sessionClose id, Event.sleep 1, Event.cursorClose] := by
    simp [queryPhase, ho, he, h4, hs1live, hlive]
  refine ⟨e2, ?_, ?_, ?_, ?_⟩
  · rw [e1]
  · rw [e1]
  · rw [e1]; simp [phase, h1]
  · intro inp2
    exact connectPrecedes_of_none a inp2 _ (by rw [e1])

/-- Witness for `connection_lost_recovery` at the reachable connected
state `sConn` with a concrete `CR_SERVER_LOST` failure. -/
theorem connection_lost_recovery_witness :
    (db_worker_step args0 inpLost sConn).1.connection = none :=
  (connection_lost_recovery args0 inpLost sConn 0 CR_SERVER_LOST
    (Reachable.step inpIdle Reachable.init) (by decide) rfl rfl rfl
    (by decide) (by decide) rfl (by decide)).2.1

/-- C3: when a query fails with an errno outside the connection-lost
class while the worker holds live session `id` (the error does not kill
the session), the iteration sleeps 2 seconds and leaves the state
completely unchanged — the session is retained (not closed, not
replaced), no connect is attempted, and the worker remains CONNECTED. -/
theorem other_error_retry_in_place (a : Args) (inp : StepInput)
    (s : WorkerState) (id errno : Nat)
    (h1 : s.stopped = false) (h2 : inp.stop = false)
    (h3 : inp.sessionDies = false) (h4 : inp.diesInError = false)
    (hc : s.connection = some id) (hl : id ∈ s.live)
    (ho : inp.outcome = QueryOutcome.mysqlErr errno)
    (he : isConnectionLost errno = false) :
    (db_worker_step a inp s).1 = s ∧
      (db_worker_step a inp s).2 =
        [Event.cursorOpen,
         Event.queryIssued (decide (inp.rLong < a.long_query_chance)),
         Event.logged LogLevel.error, Event.sleep 2, Event.cursorClose] ∧
      phase (db_worker_step a inp s).1 = Phase.CONNECTED ∧
      Event.connectAttempt ∉ (db_worker_step a inp s).2 ∧
      ∀ j : Nat, Event.sessionClose j ∉ (db_worker_step a inp s).2 := by
  have hs1live : liveAtTop inp s = s.live := by
    unfold liveAtTop; rw [hc]; simp [h3]
  have hm : id ∈ liveAtTop inp s := by rw [hs1live]; exact hl
  rw [step_body_query_eq a inp s id h1 h2 hc hm]
  have e1 : (queryPhase a inp { s with live := liveAtTop inp s } id).1
      = s := by
    simp [queryPhase, ho, he, h4, hs1live]
  have e2 : (queryPhase a inp { s with live := liveAtTop inp s } id).2 =
      [Event.cursorOpen,
       Event.queryIssued (decide (inp.rLong < a.long_query_chance)),
       Event.logged LogLevel.error, Event.sleep 2, Event.cursorClose] := by
    simp [queryPhase, ho, he, h4, hs1live]
  refine ⟨e1, e2, ?_, ?_, ?_⟩
  · rw [e1]; simp [phase, h1, hc, hl]
  · rw [e2]; simp
  · intro j; rw [e2]; simp

/-- Witness for `other_error_retry_in_place`: a concrete syntax-error
iteration at `sConn` leaves the state unchanged. -/
theorem other_error_retry_in_place_witness :
    (db_worker_step args0 inpSyntaxErr sConn).1 = sConn :=
  (other_error_retry_in_place args0 inpSyntaxErr sConn 0 1064
    (by decide) rfl rfl rfl (by decide) (by decide) rfl (by decide)).1

lemma sleepsOf_queryPhase_mysqlErr (a : Args) (inp : StepInput)
    (s : WorkerState) (id errno : Nat)
    (ho : inp.outcome = QueryOutcome.mysqlErr errno) :
    sleepsOf (queryPhase a inp s id).2 =
      if isConnectionLost errno then [1] else [2] := by
  simp only [queryPhase, ho]
  split_ifs <;> simp_all [sleepsOf]

/-- C5: when a non-mysql exception escapes the query phase while the
worker holds live session `id` (the error does not kill the session),
the `finally` closes the cursor, the outer handler logs at critical
level, force-closes the session, leaves the worker DISCONNECTED, and
sleeps 5 seconds; 5 seconds exceeds every cooldown a classified query
error produces from the same state (1s for connection-lost, 2s for
other); and the next iteration, whatever the input, reconnects before
issuing any query. -/
theorem unexpected_error_severity (a : Args) (inp : StepInput)
    (s : WorkerState) (id : Nat) (hr : Reachable a s)
    (h1 : s.stopped = false) (h2 : inp.stop = false)
    (h3 : inp.sessionDies = false) (h4 : inp.diesInError = false)
    (hc : s.connection = some id) (hl : id ∈ s.live)
    (ho : inp.outcome = QueryOutcome.unexpected) :
    (db_worker_step a inp s).2 =
        [Event.cursorOpen,
         Event.queryIssued (decide (inp.rLong < a.long_query_chance)),
         Event.cursorClose, Event.logged LogLevel.critical,
         Event.sessionClose id, Event.sleep 5] ∧
      (db_worker_step a inp s).1.connection = none ∧
      (db_worker_step a inp s).1.live = [] ∧
      phase (db_worker_step a inp s).1 = Phase.DISCONNECTED ∧
      sleepsOf (db_worker_step a inp s).2 = [5] ∧
      (∀ (errno : Nat) (q : ℚ),
        q ∈ sleepsOf (db_worker_step a
          { inp with outcome := QueryOutcome.mysqlErr errno } s).2 →
        q < 5) ∧
      ∀ inp2 : StepInput,
        connectPrecedesQueries
          (db_worker_step a inp2 (db_worker_step a inp s).1).2 = true := by
  have hinv := reachable_sessionInv a s hr
  unfold SessionInv at hinv
  rw [hc] at hinv
  have hlive : s.live = [id] := by
    rcases hinv with h | h
    · rw [h] at hl; cases hl
    · exact h
  have hs1live : liveAtTop inp s = s.live := by
    unfold liveAtTop; rw [hc]; simp [h3]
  have hm : id ∈ liveAtTop inp s := by rw [hs1live]; exact hl
  have hstep := step_body_query_eq a inp s id h1 h2 hc hm
  have e1 : (queryPhase a inp { s with live := liveAtTop inp s } id).1 =
      { s with connection := none, live := [] } := by
    simp [queryPhase, ho, h4, hs1live, hlive]
  have e2 : (queryPhase a inp { s with live := liveAtTop inp s } id).2 =
      [Event.cursorOpen,
       Event.queryIssued (decide (inp.rLong < a.long_query_chance)),
       Event.cursorClose, Event.logged LogLevel.critical,
       Event.sessionClose id, Event.sleep 5] := by
    simp [queryPhase, ho, h4, hs1live, hlive]
  refine ⟨by rw [hstep, e2], by rw [hstep, e1], by rw [hstep, e1], ?_,
    by rw [hstep, e2]; simp [sleepsOf], ?_, ?_⟩
  · rw [hstep, e1]; simp [phase, h1]
  · intro errno q hq
    have hm2 : id ∈
        liveAtTop { inp with outcome := QueryOutcome.mysqlErr errno } s := by
      unfold liveAtTop; rw [hc]; simpa [h3] using hl
    rw [step_body_query_eq a { inp with outcome := QueryOutcome.mysqlErr errno }
      s id h1 h2 hc hm2] at hq
    rw [sleepsOf_queryPhase_mysqlErr a _ _ id errno rfl] at hq
    by_cases hce : isConnectionLost errno <;>
      simp [hce] at hq <;> rw [hq] <;> norm_num
  · intro inp2
    exact connectPrecedes_of_none a inp2 _ (by rw [hstep, e1])

/-- Witness for `unexpected_error_severity` at the reachable connected
state `sConn`. -/
theorem unexpected_error_severity_witness :
    sleepsOf (db_worker_step args0 inpUnexpected sConn).2 = [5] :=
  (unexpected_error_severity args0 inpUnexpected sConn 0
    (Reachable.step inpIdle Reachable.init) (by decide) rfl rfl rfl
    (by decide) (by decide) rfl).2.2.2.2.1

/-- C6: the stop flag is read exactly once per iteration, at the loop
top (by construction of `db_worker_step`, mirroring line 82, so an
iteration that began with the flag unset runs its query to completion);
when a not-yet-stopped worker observes the flag, the iteration issues no
query and no connect attempt, closes any live session (leaving none),
and reaches the terminal STOPPED phase; and a stopped worker takes no
further steps and emits no further events. -/
theorem shutdown_cooperative_stop (a : Args) (inp : StepInput)
    (s : WorkerState) (hr : Reachable a s)
    (h1 : s.stopped = false) (h2 : inp.stop = true) :
    (db_worker_step a inp s).1.stopped = true ∧
      phase (db_worker_step a inp s).1 = Phase.STOPPED ∧
      (∀ b : Bool, Event.queryIssued b ∉ (db_worker_step a inp s).2) ∧
      Event.connectAttempt ∉ (db_worker_step a inp s).2 ∧
      (db_worker_step a inp s).1.live = [] ∧
      ∀ (inp2 : StepInput) (t : WorkerState), t.stopped = true →
        db_worker_step a inp2 t = (t, []) := by
  have hinv := reachable_sessionInv a s hr
  unfold SessionInv at hinv
  have hlast : ∀ (inp2 : StepInput) (t : WorkerState), t.stopped = true →
      db_worker_step a inp2 t = (t, []) := fun inp2 t ht =>
    step_of_stopped a inp2 t ht
  cases hc : s.connection with
  | none =>
      rw [hc] at hinv
      rw [step_stop_none_eq a inp s h1 h2 hc]
      refine ⟨rfl, by simp [phase], by simp, by simp, by simpa, hlast⟩
  | some id =>
      rw [hc] at hinv
      rw [step_stop_some_eq a inp s id h1 h2 hc]
      rcases hinv with h | h <;> rw [h] <;>
        by_cases d : inp.sessionDies <;>
        simp [d, phase, List.erase_cons_head] <;> exact hlast

/-- Witness for `shutdown_cooperative_stop`: observing the flag at the
connected reachable state `sConn` stops the worker. -/
theorem shutdown_cooperative_stop_witness :
    (db_worker_step args0 inpStop sConn).1.stopped = true :=
  (shutdown_cooperative_stop args0 inpStop sConn
    (Reachable.step inpIdle Reachable.init) (by decide) rfl).1

/-- C7 as stated fails at `short_query_interval = 0`: the iteration after
a successful query sleeps exactly `0 * (0.8 + 0.4u) = 0` seconds, and 0
does not lie in the half-open interval
`[0.8 * short_query_interval, 1.2 * short_query_interval) = [0, 0)`,
which is empty. -/
theorem jitter_interval_fails_at_zero :
    sleepsOf (db_worker_step argsZero inpIdle initState).2 = [(0 : ℚ)] ∧
      ¬((8/10 : ℚ) * argsZero.short_query_interval ≤ 0 ∧
        (0 : ℚ) < (12/10 : ℚ) * argsZero.short_query_interval) := by
  constructor
  · norm_num [db_worker_step, initState, argsZero, args0, inpIdle,
      connectThenQuery, queryPhase, liveAtTop, sleepsOf,
      List.filterMap_cons, List.filterMap_nil]
  · norm_num [argsZero, args0]

/-- C7 (amended): after every successful query — long or short — the
worker sleeps exactly `short_query_interval * (0.8 + 0.4 * u)` seconds,
where `u` is the underlying uniform draw in `[0, 1)`; whenever
`short_query_interval` is positive this duration lies in
`[0.8 * short_query_interval, 1.2 * short_query_interval)` (for
`short_query_interval = 0` the sleep is exactly 0 and the half-open
interval is empty, so only the lower bound holds). -/
theorem jitter_sleep_amended (a : Args) (inp : StepInput)
    (s : WorkerState) (id : Nat)
    (h1 : s.stopped = false) (h2 : inp.stop = false)
    (hc : s.connection = some id) (hm : id ∈ liveAtTop inp s)
    (ho : inp.outcome = QueryOutcome.ok)
    (hu0 : 0 ≤ inp.uJitter) (hu1 : inp.uJitter < 1) :
    sleepsOf (db_worker_step a inp s).2 =
        [a.short_query_interval * (8/10 + inp.uJitter * (4/10))] ∧
      (0 ≤ a.short_query_interval →
        (8/10) * a.short_query_interval ≤
          a.short_query_interval * (8/10 + inp.uJitter * (4/10))) ∧
      (0 < a.short_query_interval →
        a.short_query_interval * (8/10 + inp.uJitter * (4/10)) <
          (12/10) * a.short_query_interval) := by
  refine ⟨?_, ?_, ?_⟩
  · rw [step_body_query_eq a inp s id h1 h2 hc hm]
    simp [queryPhase, ho, sleepsOf]
  · intro h
    nlinarith [mul_nonneg h hu0]
  · intro h
    nlinarith [mul_lt_mul_of_pos_left hu1 h]

/-- Witness for `jitter_sleep_amended` at the reachable connected state
`sConn` with the concrete draw `u = 1/2`. -/
theorem jitter_sleep_amended_witness :
    sleepsOf (db_worker_step args0 inpIdle sConn).2 =
      [args0.short_query_interval * (8/10 + inpIdle.uJitter * (4/10))] :=
  (jitter_sleep_amended args0 inpIdle sConn 0 (by decide) rfl (by decide)
    (by decide) rfl (by norm_num [inpIdle]) (by norm_num [inpIdle])).1

end MySQLHAProbe

